import Mathlib

/-!
Verification of the Knucklebuck game logic (src/App.tsx).

The file embeds the game rules engine and the Knucklebot AI of the
source as executable Lean definitions, keeping the source names where
possible, and proves theorems checking the specification claims about
scoring, the capture rule, game-over detection, the AI policies and the
move resolver. JS arrays of die values are embedded as lists of natural
numbers; the JS sentinel -1 returned by findIndex style helpers is
embedded as an Option that is none exactly when the sentinel occurs;
successive Math.random draws are embedded as an explicit stream of
sampled values, and the unbounded resampling loop of the AI takes a fuel
bound, returning none when the loop has not exited within the fuel.
-/

/-- One lane: a JS array of die values, 0 marking an empty slot. -/
abbrev Lane := List Nat

/-- One board: a JS array of three lanes. -/
abbrev Board := List Lane

/-- Source constant TOTAL_LANES (App.tsx 45). -/
def TOTAL_LANES : Nat := 3

/-- Source constant LANE_SIZE (App.tsx 46). -/
def LANE_SIZE : Nat := 3

/-- Source constant DIFFICULTY_LEVELS (App.tsx 49-53): UI order with the
numeric policy selector for each label. -/
def DIFFICULTY_LEVELS : List (Nat × String) :=
  [(1, "Easy"), (0, "Normal"), (2, "Hard")]

/-- Embeds calcLaneScore (App.tsx 61-79): tally each nonzero value of the
lane, then add value * count * count for every tallied value. The JS
dictionary keyed by the distinct nonzero values is embedded by deduping
the nonzero entries; the for-in key order cannot change the sum. -/
def calcLaneScore (lane : Lane) : Nat :=
  ((lane.filter (fun v => v != 0)).dedup).foldl
    (fun score v => score + v * lane.count v * lane.count v) 0

/-- Embeds calcTotalScore (App.tsx 84-90): add calcLaneScore of board[i]
for i below TOTAL_LANES. -/
def calcTotalScore (board : Board) : Nat :=
  (List.range TOTAL_LANES).foldl
    (fun totalScore i => totalScore + calcLaneScore (board.getD i [])) 0

/-- Embeds clearMatches (App.tsx 96-103): drop every entry equal to
valueToClear, then push zeros until the lane is LANE_SIZE long again. -/
def clearMatches (lane : Lane) (valueToClear : Nat) : Lane :=
  let newLane := lane.filter (fun v => v != valueToClear)
  newLane ++ List.replicate (LANE_SIZE - newLane.length) 0

/-- Embeds laneIsFull (App.tsx 109-112): look only at the last slot of
the addressed lane. Out of range JS indexing yields undefined; every
call in the source addresses an existing 3-slot lane, and the embedding
uses getD defaults there. -/
def laneIsFull (board : Board) (laneIndex : Nat) : Bool :=
  (board.getD laneIndex []).getD (LANE_SIZE - 1) 0 != 0

/-- Embeds matchMove (App.tsx 115-121): the first self lane that already
holds the roll and is not full; none embeds the JS sentinel -1. -/
def matchMove (selfBoard : Board) (roll : Nat) : Option Nat :=
  (List.range selfBoard.length).find? (fun x =>
    (selfBoard.getD x []).contains roll && !(laneIsFull selfBoard x))

/-- Embeds captureMove (App.tsx 124-129): the first opponent lane that
holds the roll, regardless of the fullness of the own lane there. -/
def captureMove (opponentBoard : Board) (roll : Nat) : Option Nat :=
  (List.range opponentBoard.length).find? (fun x =>
    (opponentBoard.getD x []).contains roll)

/-- Embeds the findIndex fallback of knucklebotMove (App.tsx 188-190)
and the final loop of bestPlacementMove (App.tsx 167-169): the first
lane of the board that is not full. -/
def firstNonFullLane (selfBoard : Board) : Option Nat :=
  (List.range selfBoard.length).find? (fun i => !(laneIsFull selfBoard i))

/-- Embeds the die placement of makeSelection (App.tsx 722-731) and the
simulation step of bestPlacementMove (App.tsx 150-151): write the roll
at the first empty slot. When no slot is empty, JS findIndex gives -1
and the lane is observably unchanged; List.set out of range is likewise
the identity, since List.findIdx returns the length when nothing
matches. -/
def placeDie (lane : Lane) (roll : Nat) : Lane :=
  lane.set (lane.findIdx (fun v => v == 0)) roll

/-- The score gained by simulating the placement of the roll into the
lane, as computed by bestPlacementMove (App.tsx 150-154). -/
def laneDelta (lane : Lane) (roll : Nat) : Int :=
  (calcLaneScore (placeDie lane roll) : Int) - (calcLaneScore lane : Int)

/-- Embeds the scanning loop of bestPlacementMove (App.tsx 133-162).
The pair of source variables bestLaneIndex (starting at -1) and
maxScoreIncrease (starting at -Infinity) is embedded as an Option that
is none exactly while both still hold their initial sentinels: every
real score increase exceeds -Infinity, so the first considered lane
always replaces the sentinels. -/
def bestPlacementStep (selfBoard : Board) (roll : Nat)
    (st : Option (Nat × Int)) (i : Nat) : Option (Nat × Int) :=
  if laneIsFull selfBoard i then st
  else if ((selfBoard.getD i []).filter (fun v => v != 0)).length < LANE_SIZE then
    let scoreIncrease := laneDelta (selfBoard.getD i []) roll
    match st with
    | none => some (i, scoreIncrease)
    | some (b, m) => if m < scoreIncrease then some (i, scoreIncrease) else some (b, m)
  else st

def bestPlacementFold (selfBoard : Board) (roll : Nat) : Option (Nat × Int) :=
  (List.range selfBoard.length).foldl (bestPlacementStep selfBoard roll) none

/-- Embeds bestPlacementMove (App.tsx 132-171): the scanned best lane
when one was found, otherwise the first non-full lane, otherwise one
random draw (App.tsx 170), supplied here as the rnd argument. -/
def bestPlacementMove (selfBoard : Board) (roll rnd : Nat) : Nat :=
  match bestPlacementFold selfBoard roll with
  | some (b, _) => b
  | none =>
    match firstNonFullLane selfBoard with
    | some i => i
    | none => rnd

/-- Embeds the resampling of knucklebotMove (App.tsx 193-196): draw
selectRandomSpace (App.tsx 107, always a value below 3) at stream
position k, and redraw while the drawn lane is full. The fuel bounds
the number of draws; none means the loop has not exited. -/
def selectLoopAux (selfBoard : Board) (stream : Nat → Nat) : Nat → Nat → Option Nat
  | _, 0 => none
  | k, fuel + 1 =>
    if laneIsFull selfBoard (stream k) then selectLoopAux selfBoard stream (k + 1) fuel
    else some (stream k)

/-- Embeds knucklebotMove (App.tsx 176-225). The random fallback lane is
computed by the resampling loop before the difficulty switch runs; a
non-terminating loop is embedded as the result none. In the Hard case
the source lines after the bestPlacementMove call are dead, because
bestPlacementMove always yields a number distinct from the -1 sentinel,
so the bestIndex guard of the source always passes; the rnd value handed
to bestPlacementMove only feeds its own dead fallback. -/
def knucklebotMove (opponentBoard selfBoard : Board) (roll difficulty : Nat)
    (gameOverFlag : Bool) (stream : Nat → Nat) (fuel : Nat) : Option Nat :=
  if gameOverFlag then some (stream 0)
  else
    let captureIndex := captureMove opponentBoard roll
    let matchIndex := matchMove selfBoard roll
    let firstOpen := firstNonFullLane selfBoard
    match selectLoopAux selfBoard stream 0 fuel with
    | none => none
    | some selectedIndex =>
      if difficulty = 1 then
        some (match matchIndex with
          | some m => m
          | none =>
            match captureIndex with
            | some c =>
              if laneIsFull selfBoard c then firstOpen.getD selectedIndex else c
            | none => firstOpen.getD selectedIndex)
      else if difficulty = 2 then
        some (match captureIndex with
          | some c =>
            if laneIsFull selfBoard c then bestPlacementMove selfBoard roll (stream fuel)
            else c
          | none => bestPlacementMove selfBoard roll (stream fuel))
      else
        some (match captureIndex with
          | some c =>
            if laneIsFull selfBoard c then
              match matchIndex with
              | some m => m
              | none => firstOpen.getD selectedIndex
            else c
          | none =>
            match matchIndex with
            | some m => m
            | none => firstOpen.getD selectedIndex)

/-- The player record (App.tsx 23-35), restricted to the fields the game
rules read or write. -/
structure Player where
  name : String
  isFirstPlayer : Bool
  currentRoll : Nat
  score : Nat
  currency : Nat
  wager : Nat
  board : Board
  wins : Nat
  isActive : Bool
  id : String
deriving DecidableEq

/-- The game state record (App.tsx 37-43). -/
structure GState where
  winner : Option Player
  gameOver : Bool
  difficulty : Nat
  rollingDice : Bool
  isAuthReady : Bool
deriving DecidableEq

/-- The full React state the move resolver touches. -/
structure State where
  playerOne : Player
  playerTwo : Player
  gameState : GState
deriving DecidableEq

/-- Embeds isBoardFull (App.tsx 655-656): every lane, addressed through
indexOf as in the source, has a nonzero last slot. -/
def isBoardFull (board : Board) : Bool :=
  board.all (fun lane => laneIsFull board (board.indexOf lane))

/-- Embeds isGameOver (App.tsx 661-685) without the saveData call to the
persistence collaborator: the terminal flag, and the winner object that
is stored into the game state on the terminal transition. -/
def isGameOver (p1 p2 : Player) : Bool × Option Player :=
  if isBoardFull p1.board || isBoardFull p2.board then
    (true,
      if p1.score > p2.score then some p1
      else if p2.score > p1.score then some p2
      else none)
  else (false, none)

/-- Steps 1 to 6 of makeSelection (App.tsx 720-792) for a move that
passed the validity check: place the die, clear matches on the mirrored
opponent lane, recompute both total scores, rebuild both players, and
either enter the terminal state or hand the turn over. The source maps
over the lanes replacing the one at the selected index, embedded by
List.set. -/
def resolveMove (s : State) (index : Nat) : State :=
  let activePlayer := if s.playerOne.isActive then s.playerOne else s.playerTwo
  let otherPlayerBoard :=
    if activePlayer.isFirstPlayer then s.playerTwo.board else s.playerOne.board
  let newPlayerBoard :=
    activePlayer.board.set index (placeDie (activePlayer.board.getD index []) activePlayer.currentRoll)
  let newOtherPlayerBoard :=
    otherPlayerBoard.set index (clearMatches (otherPlayerBoard.getD index []) activePlayer.currentRoll)
  let newPlayerScore := calcTotalScore newPlayerBoard
  let newOtherPlayerScore := calcTotalScore newOtherPlayerBoard
  let newP1 : Player :=
    if activePlayer.isFirstPlayer then
      { s.playerOne with
          board := newPlayerBoard, score := newPlayerScore
          currentRoll := 0, isActive := false }
    else
      { s.playerOne with
          board := newOtherPlayerBoard, score := newOtherPlayerScore
          currentRoll := 0, isActive := true }
  let newP2 : Player :=
    if activePlayer.isFirstPlayer then
      { s.playerTwo with
          board := newOtherPlayerBoard, score := newOtherPlayerScore
          currentRoll := 0, isActive := true }
    else
      { s.playerTwo with
          board := newPlayerBoard, score := newPlayerScore
          currentRoll := 0, isActive := false }
  let check := isGameOver newP1 newP2
  if check.1 then
    { playerOne := newP1, playerTwo := newP2
      gameState := { s.gameState with gameOver := true, winner := check.2 } }
  else
    { playerOne := newP1, playerTwo := newP2
      gameState := { s.gameState with rollingDice := true } }

/-- Embeds makeSelection (App.tsx 704-795). A move with no pending roll
or a full target lane is rejected with only a console warning, leaving
the state untouched. When the roll is nonzero and the lane index is out
of range, the laneIsFull call of the validity check indexes undefined
and raises a TypeError before any state write; the raised exception is
embedded as none. -/
def makeSelection (s : State) (index : Nat) : Option State :=
  let activePlayer := if s.playerOne.isActive then s.playerOne else s.playerTwo
  if activePlayer.currentRoll = 0 then some s
  else if index < activePlayer.board.length then
    if laneIsFull activePlayer.board index then some s
    else some (resolveMove s index)
  else none

/-- The nonzero values of a lane form a contiguous block at the front:
after any empty slot, every later slot is empty too. -/
def laneInv (lane : Lane) : Prop :=
  ∀ i, i < lane.length → lane.getD i 0 = 0 → lane.getD (i + 1) 0 = 0

/-- A well formed board: exactly TOTAL_LANES lanes, each of length
LANE_SIZE and left-compacted. -/
def WFBoard (b : Board) : Prop :=
  b.length = TOTAL_LANES ∧
  ∀ i, i < TOTAL_LANES → (b.getD i []).length = LANE_SIZE ∧ laneInv (b.getD i [])

/-- A well formed game state: the two player records carry their fixed
first-player flags and well formed boards. -/
def WFState (s : State) : Prop :=
  s.playerOne.isFirstPlayer = true ∧ s.playerTwo.isFirstPlayer = false ∧
  WFBoard s.playerOne.board ∧ WFBoard s.playerTwo.board

/-- All nine slots of the board hold a nonzero die. -/
def boardAllFull (b : Board) : Prop :=
  ∀ i, i < TOTAL_LANES → ∀ j, j < LANE_SIZE → (b.getD i []).getD j 0 ≠ 0

instance (lane : Lane) : Decidable (laneInv lane) :=
  inferInstanceAs
    (Decidable (∀ i, i < lane.length → lane.getD i 0 = 0 → lane.getD (i + 1) 0 = 0))

instance (b : Board) : Decidable (WFBoard b) :=
  inferInstanceAs
    (Decidable (b.length = TOTAL_LANES ∧
      ∀ i, i < TOTAL_LANES → (b.getD i []).length = LANE_SIZE ∧ laneInv (b.getD i [])))

instance (s : State) : Decidable (WFState s) :=
  inferInstanceAs
    (Decidable (s.playerOne.isFirstPlayer = true ∧ s.playerTwo.isFirstPlayer = false ∧
      WFBoard s.playerOne.board ∧ WFBoard s.playerTwo.board))

instance (b : Board) : Decidable (boardAllFull b) :=
  inferInstanceAs
    (Decidable (∀ i, i < TOTAL_LANES → ∀ j, j < LANE_SIZE → (b.getD i []).getD j 0 ≠ 0))

/-- The player whose move makeSelection would resolve (App.tsx 706). -/
def activePlayerOf (s : State) : Player :=
  if s.playerOne.isActive then s.playerOne else s.playerTwo

/-- The board the capture rule acts on (App.tsx 707-709). -/
def opponentBoardOf (s : State) : Board :=
  if (activePlayerOf s).isFirstPlayer then s.playerTwo.board else s.playerOne.board

/-- A concrete resting state: both players with empty boards, player one
active with no pending roll. -/
def sampleState : State :=
  { playerOne :=
      { name := "Player", isFirstPlayer := true, currentRoll := 0, score := 0
        currency := 100, wager := 0, board := [[0, 0, 0], [0, 0, 0], [0, 0, 0]]
        wins := 0, isActive := true, id := "playerOne" }
    playerTwo :=
      { name := "Knucklebot", isFirstPlayer := false, currentRoll := 0, score := 0
        currency := 100, wager := 0, board := [[0, 0, 0], [0, 0, 0], [0, 0, 0]]
        wins := 0, isActive := false, id := "playerTwo" }
    gameState :=
      { winner := none, gameOver := false, difficulty := 0, rollingDice := false
        isAuthReady := true } }

/-- A state one placement away from filling the first player board. -/
def nearEndState : State :=
  { playerOne :=
      { name := "Player", isFirstPlayer := true, currentRoll := 3, score := 33
        currency := 100, wager := 0, board := [[1, 1, 1], [2, 2, 2], [3, 3, 0]]
        wins := 0, isActive := true, id := "playerOne" }
    playerTwo :=
      { name := "Knucklebot", isFirstPlayer := false, currentRoll := 0, score := 0
        currency := 100, wager := 0, board := [[0, 0, 0], [0, 0, 0], [0, 0, 0]]
        wins := 0, isActive := false, id := "playerTwo" }
    gameState :=
      { winner := none, gameOver := false, difficulty := 0, rollingDice := false
        isAuthReady := true } }

/-- The capture priority as the specification words it: the first
opponent lane holding the roll, taken only when the own lane at that
index is not full, otherwise skipped entirely. -/
def captureIfOpen (oppBoard selfBoard : Board) (roll : Nat) : Option Nat :=
  match captureMove oppBoard roll with
  | some c => if laneIsFull selfBoard c then none else some c
  | none => none

/-- The specification description of bestScoringLane: among the
non-full own lanes, the first lane whose simulated placement delta is
greatest. -/
def bestScoringLaneSpec (selfBoard : Board) (roll : Nat) : Option Nat :=
  let cands := (List.range selfBoard.length).filter (fun i => !(laneIsFull selfBoard i))
  cands.find? (fun i => decide (∀ j ∈ cands,
    laneDelta (selfBoard.getD j []) roll ≤ laneDelta (selfBoard.getD i []) roll))

/-- The difficulty policy tables of the specification: the priorities
are consulted in order and the first hit wins, with the random open
lane r as the final fallback. Difficulty 1 is Easy, 2 is Hard, and
anything else selects the default Normal policy. -/
def chooseLaneSpec (oppBoard selfBoard : Board) (roll difficulty r : Nat) : Nat :=
  let prios : List (Option Nat) :=
    if difficulty = 1 then
      [matchMove selfBoard roll, captureIfOpen oppBoard selfBoard roll,
        firstNonFullLane selfBoard]
    else if difficulty = 2 then
      [captureIfOpen oppBoard selfBoard roll, bestScoringLaneSpec selfBoard roll,
        matchMove selfBoard roll, firstNonFullLane selfBoard]
    else
      [captureIfOpen oppBoard selfBoard roll, matchMove selfBoard roll,
        firstNonFullLane selfBoard]
  (prios.filterMap id).headD r

/-- The specification formula for a lane score: the sum, over the
distinct nonzero values occurring in the lane, of the value weighted by
the square of its occurrence count. -/
def laneScoreSpec (lane : Lane) : Nat :=
  Finset.sum (lane.toFinset.erase 0) (fun v => v * lane.count v ^ 2)

example : calcLaneScore [3, 3, 3] = 27 := by decide
example : calcLaneScore [1, 2, 3] = 6 := by decide
example : calcLaneScore [0, 0, 0] = 0 := by decide
example : calcLaneScore [1, 1, 0] = 4 := by decide
example : clearMatches [2, 5, 2] 2 = [5, 0, 0] := by decide
example : bestPlacementMove [[1, 1, 0], [0, 0, 0], [4, 0, 0]] 1 0 = 0 := by decide

section Scoring

lemma foldl_add_map (f : Nat → Nat) : ∀ (l : List Nat) (init : Nat),
    l.foldl (fun s v => s + f v) init = init + (l.map f).sum
  | [], init => by simp
  | a :: t, init => by
    rw [List.foldl_cons, foldl_add_map f t (init + f a), List.map_cons, List.sum_cons,
      Nat.add_assoc]

lemma dedup_toFinset (l : List Nat) : l.dedup.toFinset = l.toFinset := by
  ext a
  simp [List.mem_dedup]

lemma filter_nonzero_toFinset (l : List Nat) :
    (l.filter (fun v => v != 0)).toFinset = l.toFinset.erase 0 := by
  rw [List.toFinset_filter, ← Finset.filter_ne' l.toFinset 0]
  exact Finset.filter_congr (fun x _ => by simp)

lemma calcLaneScore_eq_spec (lane : Lane) : calcLaneScore lane = laneScoreSpec lane := by
  rw [calcLaneScore, foldl_add_map, Nat.zero_add,
    ← List.sum_toFinset _ (List.nodup_dedup (lane.filter (fun v => v != 0))),
    dedup_toFinset, filter_nonzero_toFinset, laneScoreSpec]
  exact Finset.sum_congr rfl (fun v _ => by ring)

end Scoring

/-- C1: for every lane, calcLaneScore is the sum over the distinct
nonzero values v occurring in the lane of v times the square of the
occurrence count of v (an all-empty lane has empty sum 0), and for every
board of three lanes, calcTotalScore is the sum of calcLaneScore over
the three lanes; both are pure functions of the board contents. -/
theorem claim_C1_scoring :
    (∀ lane : Lane, calcLaneScore lane = laneScoreSpec lane) ∧
    (∀ l0 l1 l2 : Lane,
      calcTotalScore [l0, l1, l2] = calcLaneScore l0 + calcLaneScore l1 + calcLaneScore l2) := by
  refine ⟨calcLaneScore_eq_spec, fun l0 l1 l2 => ?_⟩
  show List.foldl _ 0 (List.range 3) = _
  rw [show List.range 3 = [0, 1, 2] from rfl]
  simp [List.foldl_cons, List.getD_cons_zero, List.getD_cons_succ]

section LaneInvariant

lemma replicate_getD (n k : Nat) : (List.replicate n (0 : Nat)).getD k 0 = 0 := by
  rcases Nat.lt_or_ge k (List.replicate n (0 : Nat)).length with h | h
  · rw [List.getD_eq_getElem _ _ h, List.getElem_replicate]
  · rw [List.getD_eq_default _ _ h]

lemma laneInv_tail {a : Nat} {t : Lane} (h : laneInv (a :: t)) : laneInv t := by
  intro i hi h0
  have h2 := h (i + 1) (by simpa using Nat.succ_lt_succ hi) (by simpa using h0)
  simpa using h2

lemma laneInv_all_zero {l : Lane} (h : laneInv l) (h0 : l.getD 0 0 = 0) :
    ∀ j, l.getD j 0 = 0 := by
  intro j
  induction j with
  | zero => exact h0
  | succ j ih =>
    rcases Nat.lt_or_ge j l.length with hj | hj
    · exact h j hj ih
    · exact List.getD_eq_default _ _ (Nat.le_trans hj (Nat.le_succ j))

lemma laneInv_exists {l : Lane} (h : laneInv l) :
    ∃ p n, l = p ++ List.replicate n 0 ∧ 0 ∉ p := by
  induction l with
  | nil => exact ⟨[], 0, rfl, by simp⟩
  | cons a t ih =>
    by_cases ha : a = 0
    · subst ha
      refine ⟨[], t.length + 1, ?_, by simp⟩
      have hz : ∀ j, (0 :: t).getD j 0 = 0 := laneInv_all_zero h (by simp)
      rw [List.nil_append, List.eq_replicate_iff]
      refine ⟨by simp, fun b hb => ?_⟩
      rcases List.mem_iff_getElem.mp hb with ⟨j, hj, rfl⟩
      have h2 := hz j
      rwa [List.getD_eq_getElem _ _ hj] at h2
    · obtain ⟨p, n, ht, hp⟩ := ih (laneInv_tail h)
      refine ⟨a :: p, n, by rw [List.cons_append, ht], ?_⟩
      intro hmem
      rcases List.mem_cons.mp hmem with h0 | h0
      · exact ha h0.symm
      · exact hp h0

lemma laneInv_of_shape {p : Lane} {n : Nat} (hp : 0 ∉ p) :
    laneInv (p ++ List.replicate n 0) := by
  intro i hi h0
  have hip : p.length ≤ i := by
    by_contra hlt
    push_neg at hlt
    rw [List.getD_append _ _ _ _ hlt, List.getD_eq_getElem _ _ hlt] at h0
    exact hp (h0 ▸ List.getElem_mem hlt)
  rw [List.getD_append_right _ _ _ _ (Nat.le_trans hip (Nat.le_succ i))]
  exact replicate_getD n _

lemma laneInv_iff (l : Lane) :
    laneInv l ↔ ∃ p n, l = p ++ List.replicate n 0 ∧ 0 ∉ p := by
  refine ⟨laneInv_exists, ?_⟩
  rintro ⟨p, n, rfl, hp⟩
  exact laneInv_of_shape hp

lemma filter_ne_zero_of_not_mem {p : Lane} (hp : 0 ∉ p) :
    p.filter (fun x => x != 0) = p :=
  List.filter_eq_self.mpr (fun a ha => by
    simp only [bne_iff_ne, ne_eq, decide_eq_true_eq]
    exact fun h => hp (h ▸ ha))

lemma replicate_filter_ne (n : Nat) {v : Nat} (hv : v ≠ 0) :
    (List.replicate n (0 : Nat)).filter (fun x => x != v) = List.replicate n 0 :=
  List.filter_eq_self.mpr (fun a ha => by
    rw [List.eq_of_mem_replicate ha]
    simp [bne_iff_ne]
    exact fun h => hv h.symm)

lemma clearMatches_shape (p : Lane) (n : Nat) {v : Nat} (hv : v ≠ 0) :
    clearMatches (p ++ List.replicate n 0) v =
      p.filter (fun x => x != v) ++
        List.replicate (n + (LANE_SIZE - ((p.filter (fun x => x != v)).length + n))) 0 := by
  rw [clearMatches, List.filter_append, replicate_filter_ne n hv, List.append_assoc,
    ← List.replicate_add]
  congr 3
  simp

lemma filter_no_zero {p : Lane} (hp : 0 ∉ p) (v : Nat) :
    0 ∉ p.filter (fun x => x != v) := by
  intro hmem
  exact hp (List.mem_of_mem_filter hmem)

lemma clearMatches_inv (lane : Lane) (v : Nat) (h : laneInv lane) :
    laneInv (clearMatches lane v) := by
  obtain ⟨p, n, rfl, hp⟩ := laneInv_exists h
  by_cases hv : v = 0
  · subst hv
    rw [clearMatches]
    have hfilter : (p ++ List.replicate n 0).filter (fun x => x != 0) = p := by
      rw [List.filter_append, filter_ne_zero_of_not_mem hp]
      simp
    rw [hfilter]
    exact laneInv_of_shape hp
  · rw [clearMatches_shape p n hv]
    exact laneInv_of_shape (filter_no_zero hp v)

lemma clearMatches_length (lane : Lane) (v : Nat) (h : lane.length = LANE_SIZE) :
    (clearMatches lane v).length = LANE_SIZE := by
  rw [clearMatches]
  have h2 := List.length_filter_le (fun x => x != v) lane
  simp only [List.length_append, List.length_replicate]
  rw [h] at h2
  simp only [LANE_SIZE] at h2 ⊢
  omega

lemma findIdx_zero_append (p : Lane) (hp : 0 ∉ p) (rest : Lane) :
    (p ++ 0 :: rest).findIdx (fun v => v == 0) = p.length := by
  induction p with
  | nil => simp [List.findIdx_cons]
  | cons a t ih =>
    have ha : (a == 0) = false := by
      simp only [beq_eq_false_iff_ne, ne_eq]
      exact fun h => hp (h ▸ List.mem_cons_self a t)
    rw [List.cons_append, List.findIdx_cons, ha, cond_false,
      ih (fun h => hp (List.mem_cons_of_mem a h))]
    simp

lemma placeDie_shape (p : Lane) (n : Nat) (roll : Nat) (hp : 0 ∉ p) :
    placeDie (p ++ List.replicate (n + 1) 0) roll =
      (p ++ [roll]) ++ List.replicate n 0 := by
  rw [placeDie,
    show List.replicate (n + 1) (0 : Nat) = 0 :: List.replicate n 0 from rfl,
    findIdx_zero_append p hp, List.set_append, if_neg (lt_irrefl p.length), Nat.sub_self,
    List.set_cons_zero, List.append_assoc, List.singleton_append]

lemma placeDie_inv (lane : Lane) (roll : Nat) (h : laneInv lane) (hroll : roll ≠ 0) :
    laneInv (placeDie lane roll) := by
  obtain ⟨p, n, rfl, hp⟩ := laneInv_exists h
  cases n with
  | zero =>
    rw [show List.replicate 0 (0 : Nat) = [] from rfl, List.append_nil] at *
    rw [placeDie, List.findIdx_eq_length.mpr (fun a ha => by
        simp only [beq_eq_false_iff_ne, ne_eq]
        exact fun h2 => hp (h2 ▸ ha)),
      List.set_eq_of_length_le (Nat.le_refl _)]
    exact h
  | succ n =>
    rw [placeDie_shape p n roll hp]
    apply laneInv_of_shape
    intro hmem
    rcases List.mem_append.mp hmem with h0 | h0
    · exact hp h0
    · exact hroll (List.mem_singleton.mp h0).symm

lemma placeDie_length (lane : Lane) (roll : Nat) :
    (placeDie lane roll).length = lane.length :=
  List.length_set lane _ roll

lemma lane_full_iff {lane : Lane} (h : laneInv lane) (hlen : lane.length = LANE_SIZE) :
    lane.getD (LANE_SIZE - 1) 0 ≠ 0 ↔ ∀ j, j < LANE_SIZE → lane.getD j 0 ≠ 0 := by
  simp only [LANE_SIZE] at hlen ⊢
  constructor
  · intro h2 j hj h0
    apply h2
    interval_cases j
    · have s1 := h 0 (by omega) h0
      have s2 := h 1 (by omega) s1
      exact s2
    · exact h 1 (by omega) h0
    · exact h0
  · intro hall
    exact hall 2 (by omega)

end LaneInvariant

section Capture

lemma survivors_eq {p : Lane} (n : Nat) (hp : 0 ∉ p) (v : Nat) :
    (p ++ List.replicate n 0).filter (fun x => x != 0 && x != v) =
      p.filter (fun x => x != v) := by
  rw [List.filter_append]
  have h1 : (List.replicate n (0 : Nat)).filter (fun x => x != 0 && x != v) = [] := by
    apply List.filter_eq_nil_iff.mpr
    intro a ha
    rw [List.eq_of_mem_replicate ha]
    simp
  have h2 : p.filter (fun x => x != 0 && x != v) = p.filter (fun x => x != v) := by
    apply List.filter_congr
    intro x hx
    have hx0 : (x != 0) = true := by
      rw [bne_iff_ne]
      exact fun h => hp (h ▸ hx)
    rw [hx0, Bool.true_and]
  rw [h1, h2, List.append_nil]

lemma clearMatches_spec (lane : Lane) (v : Nat) (hinv : laneInv lane)
    (hlen : lane.length = LANE_SIZE) (hv : v ≠ 0) :
    clearMatches lane v =
      lane.filter (fun x => x != 0 && x != v) ++
        List.replicate (LANE_SIZE - (lane.filter (fun x => x != 0 && x != v)).length) 0 := by
  obtain ⟨p, n, rfl, hp⟩ := laneInv_exists hinv
  rw [survivors_eq n hp v, clearMatches_shape p n hv]
  congr 2
  have hk := List.length_filter_le (fun x => x != v) p
  have hlen2 : p.length + n = LANE_SIZE := by simpa using hlen
  simp only [LANE_SIZE] at hlen2 ⊢
  omega

lemma clearMatches_not_mem (lane : Lane) (v : Nat)
    (hlen : lane.length = LANE_SIZE) (hv : v ∉ lane) : clearMatches lane v = lane := by
  have hfilter : lane.filter (fun x => x != v) = lane :=
    List.filter_eq_self.mpr (fun a ha => by
      rw [bne_iff_ne]
      exact fun h => hv (h ▸ ha))
  rw [clearMatches, hfilter, hlen, Nat.sub_self]
  simp

lemma makeSelection_valid {s : State} {index : Nat}
    (hroll : (activePlayerOf s).currentRoll ≠ 0)
    (hidx : index < (activePlayerOf s).board.length)
    (hfull : laneIsFull (activePlayerOf s).board index = false) :
    makeSelection s index = some (resolveMove s index) := by
  simp only [makeSelection, activePlayerOf] at *
  rw [if_neg hroll, if_pos hidx, if_neg (by simp [hfull])]

end Capture

lemma resolveMove_opponent_board (s : State) (index : Nat)
    (hF1 : s.playerOne.isFirstPlayer = true) (hF2 : s.playerTwo.isFirstPlayer = false) :
    (if (activePlayerOf s).isFirstPlayer then (resolveMove s index).playerTwo.board
     else (resolveMove s index).playerOne.board) =
      (opponentBoardOf s).set index
        (clearMatches ((opponentBoardOf s).getD index []) (activePlayerOf s).currentRoll) := by
  cases hA : s.playerOne.isActive with
  | true =>
    simp only [resolveMove, activePlayerOf, opponentBoardOf, hA, hF1, if_true]
    split <;> rfl
  | false =>
    simp only [resolveMove, activePlayerOf, opponentBoardOf, hA, hF2, if_false,
      Bool.false_eq_true]
    split <;> rfl

/-- C2: a valid move that places the rolled value at lane index i removes
every occurrence of that value from the opponent lane at the same index
i, keeping the surviving values in order, compacted to the left, with
freed slots at the end set to 0; an opponent lane that is empty or does
not hold the rolled value is unchanged; in particular opponent lane
[2,5,2] with a placed 2 becomes [5,0,0]. -/
theorem claim_C2_capture :
    (∀ lane v, laneInv lane → lane.length = LANE_SIZE → v ≠ 0 →
      clearMatches lane v =
        lane.filter (fun x => x != 0 && x != v) ++
          List.replicate (LANE_SIZE - (lane.filter (fun x => x != 0 && x != v)).length) 0) ∧
    (∀ lane v, lane.length = LANE_SIZE → v ∉ lane → clearMatches lane v = lane) ∧
    clearMatches [2, 5, 2] 2 = [5, 0, 0] ∧
    (∀ s index, WFState s →
      (activePlayerOf s).currentRoll ≠ 0 →
      laneIsFull (activePlayerOf s).board index = false →
      index < TOTAL_LANES →
      ∃ s', makeSelection s index = some s' ∧
        (if (activePlayerOf s).isFirstPlayer then s'.playerTwo.board
         else s'.playerOne.board) =
          (opponentBoardOf s).set index
            (clearMatches ((opponentBoardOf s).getD index [])
              (activePlayerOf s).currentRoll)) := by
  refine ⟨clearMatches_spec, clearMatches_not_mem, by decide, ?_⟩
  intro s index hWF hroll hfull hidx
  obtain ⟨hF1, hF2, hB1, hB2⟩ := hWF
  have hlen : (activePlayerOf s).board.length = TOTAL_LANES := by
    rw [activePlayerOf]
    split
    · exact hB1.1
    · exact hB2.1
  exact ⟨resolveMove s index,
    makeSelection_valid hroll (by rw [hlen]; exact hidx) hfull,
    resolveMove_opponent_board s index hF1 hF2⟩

/-- Concrete instance discharging the hypotheses of claim_C2_capture:
the capture [2,5,2] with value 2 compacts to [5,0,0]. -/
theorem claim_C2_capture_witness :
    (laneInv [2, 5, 2] ∧ ([2, 5, 2] : Lane).length = LANE_SIZE ∧ (2 : Nat) ≠ 0) ∧
    clearMatches [2, 5, 2] 2 =
      ([2, 5, 2] : Lane).filter (fun x => x != 0 && x != 2) ++
        List.replicate
          (LANE_SIZE - (([2, 5, 2] : Lane).filter (fun x => x != 0 && x != 2)).length) 0 :=
  ⟨by decide, claim_C2_capture.1 [2, 5, 2] 2 (by decide) (by decide) (by decide)⟩

/-- C6: both lane mutations of the game (die placement at the first
empty slot, and capture compaction) preserve the left-compacted lane
invariant, and under that invariant a 3-slot lane has every slot
nonzero exactly when its last slot is nonzero, which is the only slot
laneIsFull inspects. -/
theorem claim_C6_invariant :
    (∀ lane roll, laneInv lane → roll ≠ 0 → laneInv (placeDie lane roll)) ∧
    (∀ lane v, laneInv lane → laneInv (clearMatches lane v)) ∧
    (∀ board i, WFBoard board → i < TOTAL_LANES →
      (laneIsFull board i = true ↔
        ∀ j, j < LANE_SIZE → (board.getD i []).getD j 0 ≠ 0)) := by
  refine ⟨placeDie_inv, fun lane v h => clearMatches_inv lane v h, ?_⟩
  intro board i hWF hi
  obtain ⟨hlen, hinv⟩ := hWF.2 i hi
  simp only [laneIsFull, bne_iff_ne]
  exact lane_full_iff hinv hlen

/-- Concrete instance discharging the hypotheses of claim_C6_invariant:
placing a nonzero die into the compacted lane [4,0,0] keeps it
compacted. -/
theorem claim_C6_invariant_witness :
    (laneInv [4, 0, 0] ∧ (4 : Nat) ≠ 0) ∧ laneInv (placeDie [4, 0, 0] 4) :=
  ⟨by decide, claim_C6_invariant.1 [4, 0, 0] 4 (by decide) (by decide)⟩

/-- C7: a move attempt with no pending roll, a lane index outside the
three lanes, or a full target lane leaves the state exactly as it was:
boards, scores, active flag and the pending roll are unchanged. A full
target lane and a missing roll return the unchanged state with a console
warning; an out of range index raises before any write, so the observed
state after the attempt, modelled by getD over the optional result, is
the original state in every case. -/
theorem claim_C7_invalid_move (s : State) (index : Nat)
    (hlen : (activePlayerOf s).board.length = TOTAL_LANES)
    (hinv : (activePlayerOf s).currentRoll = 0 ∨ TOTAL_LANES ≤ index ∨
      laneIsFull (activePlayerOf s).board index = true) :
    (makeSelection s index).getD s = s := by
  rw [makeSelection]
  simp only [activePlayerOf] at hlen hinv
  by_cases hr : (if s.playerOne.isActive then s.playerOne else s.playerTwo).currentRoll = 0
  · rw [if_pos hr]
    rfl
  · rw [if_neg hr]
    rcases hinv with h | h | h
    · exact absurd h hr
    · rw [if_neg (by rw [hlen]; omega)]
      rfl
    · by_cases hi : index < (if s.playerOne.isActive then s.playerOne else s.playerTwo).board.length
      · rw [if_pos hi, if_pos h]
        rfl
      · rw [if_neg hi]
        rfl

/-- Concrete instance discharging the hypotheses of
claim_C7_invalid_move: with no pending roll the attempt changes
nothing. -/
theorem claim_C7_invalid_move_witness :
    ((activePlayerOf sampleState).board.length = TOTAL_LANES ∧
      (activePlayerOf sampleState).currentRoll = 0) ∧
    (makeSelection sampleState 1).getD sampleState = sampleState :=
  ⟨by decide, claim_C7_invalid_move sampleState 1 (by decide) (Or.inl (by decide))⟩

section GameOver

lemma getD_set_eq (b : Board) (i : Nat) (x : Lane) (h : i < b.length) :
    (b.set i x).getD i [] = x := by
  rw [List.getD_eq_getElem _ _ (by rw [List.length_set]; exact h), List.getElem_set,
    if_pos rfl]

lemma getD_set_ne (b : Board) (i j : Nat) (x : Lane) (h : i ≠ j) :
    (b.set i x).getD j [] = b.getD j [] := by
  rcases Nat.lt_or_ge j b.length with hj | hj
  · rw [List.getD_eq_getElem _ _ (by rw [List.length_set]; exact hj), List.getElem_set,
      if_neg h, List.getD_eq_getElem _ _ hj]
  · rw [List.getD_eq_default _ _ (by rw [List.length_set]; exact hj),
      List.getD_eq_default _ _ hj]

lemma getD_indexOf {b : Board} {lane : Lane} (h : lane ∈ b) :
    b.getD (b.indexOf lane) [] = lane := by
  induction b with
  | nil => cases h
  | cons a t ih =>
    show (a :: t).getD (List.findIdx (fun x => x == lane) (a :: t)) [] = lane
    rw [List.findIdx_cons]
    by_cases hal : a = lane
    · subst hal
      rw [show (a == a) = true from beq_self_eq_true a, cond_true]
      rfl
    · have h2 : lane ∈ t := by
        rcases List.mem_cons.mp h with h1 | h1
        · exact absurd h1.symm hal
        · exact h1
      rw [show (a == lane) = false from beq_eq_false_iff_ne.mpr hal, cond_false,
        List.getD_cons_succ]
      exact ih h2

lemma isBoardFull_iff {b : Board} (hWF : WFBoard b) :
    isBoardFull b = true ↔ boardAllFull b := by
  rw [isBoardFull, List.all_eq_true]
  constructor
  · intro hall i hi j hj h0
    have hib : i < b.length := by rw [hWF.1]; exact hi
    have hmem : b.getD i [] ∈ b := by
      rw [List.getD_eq_getElem _ _ hib]
      exact List.getElem_mem hib
    have h2 := hall _ hmem
    simp only [laneIsFull] at h2
    rw [getD_indexOf hmem, bne_iff_ne] at h2
    obtain ⟨hlen, hinv⟩ := hWF.2 i hi
    exact (lane_full_iff hinv hlen).mp h2 j hj h0
  · intro hfull lane hmem
    rcases List.mem_iff_getElem.mp hmem with ⟨i, hib, rfl⟩
    have hi : i < TOTAL_LANES := by rw [← hWF.1]; exact hib
    obtain ⟨hlen, hinv⟩ := hWF.2 i hi
    have hgd : b.getD i [] = b[i] := List.getD_eq_getElem _ _ hib
    simp only [laneIsFull]
    rw [getD_indexOf hmem, bne_iff_ne, ← hgd]
    exact (lane_full_iff hinv hlen).mpr (fun j hj => hfull i hi j hj)

lemma WFBoard_set_placeDie {b : Board} (index roll : Nat)
    (hWF : WFBoard b) (hroll : roll ≠ 0) :
    WFBoard (b.set index (placeDie (b.getD index []) roll)) := by
  refine ⟨by rw [List.length_set]; exact hWF.1, fun i hi => ?_⟩
  by_cases hii : index = i
  · subst hii
    have hilt : index < b.length := by rw [hWF.1]; exact hi
    rw [getD_set_eq b index _ hilt]
    obtain ⟨hlen, hinv⟩ := hWF.2 index hi
    exact ⟨by rw [placeDie_length]; exact hlen, placeDie_inv _ roll hinv hroll⟩
  · rw [getD_set_ne b index i _ hii]
    exact hWF.2 i hi

lemma WFBoard_set_clearMatches {b : Board} (index v : Nat) (hWF : WFBoard b) :
    WFBoard (b.set index (clearMatches (b.getD index []) v)) := by
  refine ⟨by rw [List.length_set]; exact hWF.1, fun i hi => ?_⟩
  by_cases hii : index = i
  · subst hii
    have hilt : index < b.length := by rw [hWF.1]; exact hi
    rw [getD_set_eq b index _ hilt]
    obtain ⟨hlen, hinv⟩ := hWF.2 index hi
    exact ⟨clearMatches_length _ v hlen, clearMatches_inv _ v hinv⟩
  · rw [getD_set_ne b index i _ hii]
    exact hWF.2 i hi

lemma isGameOver_fst (P1 P2 : Player)
    (hWF1 : WFBoard P1.board) (hWF2 : WFBoard P2.board) :
    (isGameOver P1 P2).1 = true ↔ (boardAllFull P1.board ∨ boardAllFull P2.board) := by
  rw [isGameOver]
  by_cases hb : (isBoardFull P1.board || isBoardFull P2.board) = true
  · rw [if_pos hb]
    refine ⟨fun _ => ?_, fun _ => rfl⟩
    rcases Bool.or_eq_true_iff.mp hb with h | h
    · exact Or.inl ((isBoardFull_iff hWF1).mp h)
    · exact Or.inr ((isBoardFull_iff hWF2).mp h)
  · rw [if_neg hb]
    refine ⟨fun h => absurd h (by simp), fun h => absurd ?_ hb⟩
    rcases h with h | h
    · exact Bool.or_eq_true_iff.mpr (Or.inl ((isBoardFull_iff hWF1).mpr h))
    · exact Bool.or_eq_true_iff.mpr (Or.inr ((isBoardFull_iff hWF2).mpr h))

lemma isGameOver_snd (P1 P2 : Player) (h : (isGameOver P1 P2).1 = true) :
    (isGameOver P1 P2).2 = if P1.score > P2.score then some P1
      else if P2.score > P1.score then some P2 else none := by
  rw [isGameOver] at h ⊢
  by_cases hb : (isBoardFull P1.board || isBoardFull P2.board) = true
  · rw [if_pos hb]
  · rw [if_neg hb] at h
    exact absurd h (by simp)

end GameOver

section MoveResolution

lemma resolveMove_eq_p1 (s : State) (index : Nat)
    (hA : s.playerOne.isActive = true) (hF1 : s.playerOne.isFirstPlayer = true) :
    resolveMove s index =
      (if (isGameOver
            { s.playerOne with
                board := s.playerOne.board.set index
                  (placeDie (s.playerOne.board.getD index []) s.playerOne.currentRoll)
                score := calcTotalScore (s.playerOne.board.set index
                  (placeDie (s.playerOne.board.getD index []) s.playerOne.currentRoll))
                currentRoll := 0, isActive := false }
            { s.playerTwo with
                board := s.playerTwo.board.set index
                  (clearMatches (s.playerTwo.board.getD index []) s.playerOne.currentRoll)
                score := calcTotalScore (s.playerTwo.board.set index
                  (clearMatches (s.playerTwo.board.getD index []) s.playerOne.currentRoll))
                currentRoll := 0, isActive := true }).1 then
        { playerOne :=
            { s.playerOne with
                board := s.playerOne.board.set index
                  (placeDie (s.playerOne.board.getD index []) s.playerOne.currentRoll)
                score := calcTotalScore (s.playerOne.board.set index
                  (placeDie (s.playerOne.board.getD index []) s.playerOne.currentRoll))
                currentRoll := 0, isActive := false }
          playerTwo :=
            { s.playerTwo with
                board := s.playerTwo.board.set index
                  (clearMatches (s.playerTwo.board.getD index []) s.playerOne.currentRoll)
                score := calcTotalScore (s.playerTwo.board.set index
                  (clearMatches (s.playerTwo.board.getD index []) s.playerOne.currentRoll))
                currentRoll := 0, isActive := true }
          gameState :=
            { s.gameState with
                gameOver := true
                winner := (isGameOver
                  { s.playerOne with
                      board := s.playerOne.board.set index
                        (placeDie (s.playerOne.board.getD index []) s.playerOne.currentRoll)
                      score := calcTotalScore (s.playerOne.board.set index
                        (placeDie (s.playerOne.board.getD index []) s.playerOne.currentRoll))
                      currentRoll := 0, isActive := false }
                  { s.playerTwo with
                      board := s.playerTwo.board.set index
                        (clearMatches (s.playerTwo.board.getD index []) s.playerOne.currentRoll)
                      score := calcTotalScore (s.playerTwo.board.set index
                        (clearMatches (s.playerTwo.board.getD index []) s.playerOne.currentRoll))
                      currentRoll := 0, isActive := true }).2 } }
      else
        { playerOne :=
            { s.playerOne with
                board := s.playerOne.board.set index
                  (placeDie (s.playerOne.board.getD index []) s.playerOne.currentRoll)
                score := calcTotalScore (s.playerOne.board.set index
                  (placeDie (s.playerOne.board.getD index []) s.playerOne.currentRoll))
                currentRoll := 0, isActive := false }
          playerTwo :=
            { s.playerTwo with
                board := s.playerTwo.board.set index
                  (clearMatches (s.playerTwo.board.getD index []) s.playerOne.currentRoll)
                score := calcTotalScore (s.playerTwo.board.set index
                  (clearMatches (s.playerTwo.board.getD index []) s.playerOne.currentRoll))
                currentRoll := 0, isActive := true }
          gameState := { s.gameState with rollingDice := true } }) := by
  simp only [resolveMove, hA, hF1, if_true]

end MoveResolution

lemma resolveMove_eq_p2 (s : State) (index : Nat)
    (hA : s.playerOne.isActive = false) (hF2 : s.playerTwo.isFirstPlayer = false) :
    resolveMove s index =
      (if (isGameOver
            { s.playerOne with
                board := s.playerOne.board.set index
                  (clearMatches (s.playerOne.board.getD index []) s.playerTwo.currentRoll)
                score := calcTotalScore (s.playerOne.board.set index
                  (clearMatches (s.playerOne.board.getD index []) s.playerTwo.currentRoll))
                currentRoll := 0, isActive := true }
            { s.playerTwo with
                board := s.playerTwo.board.set index
                  (placeDie (s.playerTwo.board.getD index []) s.playerTwo.currentRoll)
                score := calcTotalScore (s.playerTwo.board.set index
                  (placeDie (s.playerTwo.board.getD index []) s.playerTwo.currentRoll))
                currentRoll := 0, isActive := false }).1 then
        { playerOne :=
            { s.playerOne with
                board := s.playerOne.board.set index
                  (clearMatches (s.playerOne.board.getD index []) s.playerTwo.currentRoll)
                score := calcTotalScore (s.playerOne.board.set index
                  (clearMatches (s.playerOne.board.getD index []) s.playerTwo.currentRoll))
                currentRoll := 0, isActive := true }
          playerTwo :=
            { s.playerTwo with
                board := s.playerTwo.board.set index
                  (placeDie (s.playerTwo.board.getD index []) s.playerTwo.currentRoll)
                score := calcTotalScore (s.playerTwo.board.set index
                  (placeDie (s.playerTwo.board.getD index []) s.playerTwo.currentRoll))
                currentRoll := 0, isActive := false }
          gameState :=
            { s.gameState with
                gameOver := true
                winner := (isGameOver
                  { s.playerOne with
                      board := s.playerOne.board.set index
                        (clearMatches (s.playerOne.board.getD index []) s.playerTwo.currentRoll)
                      score := calcTotalScore (s.playerOne.board.set index
                        (clearMatches (s.playerOne.board.getD index []) s.playerTwo.currentRoll))
                      currentRoll := 0, isActive := true }
                  { s.playerTwo with
                      board := s.playerTwo.board.set index
                        (placeDie (s.playerTwo.board.getD index []) s.playerTwo.currentRoll)
                      score := calcTotalScore (s.playerTwo.board.set index
                        (placeDie (s.playerTwo.board.getD index []) s.playerTwo.currentRoll))
                      currentRoll := 0, isActive := false }).2 } }
      else
        { playerOne :=
            { s.playerOne with
                board := s.playerOne.board.set index
                  (clearMatches (s.playerOne.board.getD index []) s.playerTwo.currentRoll)
                score := calcTotalScore (s.playerOne.board.set index
                  (clearMatches (s.playerOne.board.getD index []) s.playerTwo.currentRoll))
                currentRoll := 0, isActive := true }
          playerTwo :=
            { s.playerTwo with
                board := s.playerTwo.board.set index
                  (placeDie (s.playerTwo.board.getD index []) s.playerTwo.currentRoll)
                score := calcTotalScore (s.playerTwo.board.set index
                  (placeDie (s.playerTwo.board.getD index []) s.playerTwo.currentRoll))
                currentRoll := 0, isActive := false }
          gameState := { s.gameState with rollingDice := true } }) := by
  simp only [resolveMove, hA, hF2, Bool.false_eq_true, if_false]

lemma C3_core (s : State) (index : Nat) (P1 P2 : Player)
    (hres : resolveMove s index =
      (if (isGameOver P1 P2).1 then
        { playerOne := P1, playerTwo := P2
          gameState := { s.gameState with
            gameOver := true, winner := (isGameOver P1 P2).2 } }
      else
        { playerOne := P1, playerTwo := P2
          gameState := { s.gameState with rollingDice := true } }))
    (hWF1 : WFBoard P1.board) (hWF2 : WFBoard P2.board)
    (hs1 : P1.score = calcTotalScore P1.board) (hs2 : P2.score = calcTotalScore P2.board)
    (hgo : s.gameState.gameOver = false) :
    ((resolveMove s index).gameState.gameOver = true ↔
      (boardAllFull (resolveMove s index).playerOne.board ∨
        boardAllFull (resolveMove s index).playerTwo.board)) ∧
    ((resolveMove s index).gameState.gameOver = true →
      (((resolveMove s index).gameState.winner = some (resolveMove s index).playerOne ∧
          calcTotalScore (resolveMove s index).playerOne.board >
            calcTotalScore (resolveMove s index).playerTwo.board) ∨
       ((resolveMove s index).gameState.winner = some (resolveMove s index).playerTwo ∧
          calcTotalScore (resolveMove s index).playerTwo.board >
            calcTotalScore (resolveMove s index).playerOne.board) ∨
       ((resolveMove s index).gameState.winner = none ∧
          calcTotalScore (resolveMove s index).playerOne.board =
            calcTotalScore (resolveMove s index).playerTwo.board))) := by
  rw [hres]
  by_cases hO : (isGameOver P1 P2).1 = true
  · rw [if_pos hO]
    constructor
    · exact iff_of_true rfl ((isGameOver_fst P1 P2 hWF1 hWF2).mp hO)
    · intro _
      have hw := isGameOver_snd P1 P2 hO
      rcases Nat.lt_trichotomy P1.score P2.score with hlt | heq | hgt
      · refine Or.inr (Or.inl ⟨?_, ?_⟩)
        · show (isGameOver P1 P2).2 = some P2
          rw [hw, if_neg (by omega), if_pos (by omega)]
        · show calcTotalScore P2.board > calcTotalScore P1.board
          rw [← hs1, ← hs2]
          exact hlt
      · refine Or.inr (Or.inr ⟨?_, ?_⟩)
        · show (isGameOver P1 P2).2 = none
          rw [hw, if_neg (by omega), if_neg (by omega)]
        · show calcTotalScore P1.board = calcTotalScore P2.board
          rw [← hs1, ← hs2]
          exact heq
      · refine Or.inl ⟨?_, ?_⟩
        · show (isGameOver P1 P2).2 = some P1
          rw [hw, if_pos (by omega)]
        · show calcTotalScore P1.board > calcTotalScore P2.board
          rw [← hs1, ← hs2]
          exact hgt
  · rw [if_neg hO]
    constructor
    · apply iff_of_false
      · show ¬(s.gameState.gameOver = true)
        rw [hgo]
        simp
      · intro hd
        exact hO ((isGameOver_fst P1 P2 hWF1 hWF2).mpr hd)
    · intro h
      have h2 : s.gameState.gameOver = true := h
      rw [hgo] at h2
      cases h2

/-- C3: after every valid move the game is terminal exactly when one of
the two resulting boards has all nine slots nonzero, and not before; on
the terminal transition the stored winner is the player whose recomputed
total score is strictly higher, and equal totals store no winner. -/
theorem claim_C3_gameover (s : State) (index : Nat) (hWF : WFState s)
    (hgo : s.gameState.gameOver = false)
    (hroll : (activePlayerOf s).currentRoll ≠ 0)
    (hidx : index < TOTAL_LANES)
    (hfull : laneIsFull (activePlayerOf s).board index = false) :
    ∃ s', makeSelection s index = some s' ∧
      (s'.gameState.gameOver = true ↔
        (boardAllFull s'.playerOne.board ∨ boardAllFull s'.playerTwo.board)) ∧
      (s'.gameState.gameOver = true →
        ((s'.gameState.winner = some s'.playerOne ∧
            calcTotalScore s'.playerOne.board > calcTotalScore s'.playerTwo.board) ∨
         (s'.gameState.winner = some s'.playerTwo ∧
            calcTotalScore s'.playerTwo.board > calcTotalScore s'.playerOne.board) ∨
         (s'.gameState.winner = none ∧
            calcTotalScore s'.playerOne.board = calcTotalScore s'.playerTwo.board))) := by
  obtain ⟨hF1, hF2, hB1, hB2⟩ := hWF
  cases hA : s.playerOne.isActive with
  | true =>
    have hact : activePlayerOf s = s.playerOne := by
      simp only [activePlayerOf, hA, if_true]
    rw [hact] at hroll hfull
    have hroll2 : s.playerOne.currentRoll ≠ 0 := hroll
    have hcore := C3_core s index _ _ (resolveMove_eq_p1 s index hA hF1)
      (WFBoard_set_placeDie index s.playerOne.currentRoll hB1 hroll2)
      (WFBoard_set_clearMatches index s.playerOne.currentRoll hB2)
      rfl rfl hgo
    refine ⟨resolveMove s index, ?_, hcore.1, hcore.2⟩
    apply makeSelection_valid
    · rwa [hact]
    · rw [hact, hB1.1]
      exact hidx
    · rwa [hact]
  | false =>
    have hact : activePlayerOf s = s.playerTwo := by
      simp only [activePlayerOf, hA, Bool.false_eq_true, if_false]
    rw [hact] at hroll hfull
    have hroll2 : s.playerTwo.currentRoll ≠ 0 := hroll
    have hcore := C3_core s index _ _ (resolveMove_eq_p2 s index hA hF2)
      (WFBoard_set_clearMatches index s.playerTwo.currentRoll hB1)
      (WFBoard_set_placeDie index s.playerTwo.currentRoll hB2 hroll2)
      rfl rfl hgo
    refine ⟨resolveMove s index, ?_, hcore.1, hcore.2⟩
    apply makeSelection_valid
    · rwa [hact]
    · rw [hact, hB2.1]
      exact hidx
    · rwa [hact]

/-- Concrete instance discharging the hypotheses of claim_C3_gameover:
completing the last lane of the first player board ends the game. -/
theorem claim_C3_gameover_witness :
    (WFState nearEndState ∧ nearEndState.gameState.gameOver = false ∧
      (activePlayerOf nearEndState).currentRoll ≠ 0 ∧ (2 : Nat) < TOTAL_LANES ∧
      laneIsFull (activePlayerOf nearEndState).board 2 = false) ∧
    (∃ s', makeSelection nearEndState 2 = some s' ∧
      (s'.gameState.gameOver = true ↔
        (boardAllFull s'.playerOne.board ∨ boardAllFull s'.playerTwo.board)) ∧
      (s'.gameState.gameOver = true →
        ((s'.gameState.winner = some s'.playerOne ∧
            calcTotalScore s'.playerOne.board > calcTotalScore s'.playerTwo.board) ∨
         (s'.gameState.winner = some s'.playerTwo ∧
            calcTotalScore s'.playerTwo.board > calcTotalScore s'.playerOne.board) ∨
         (s'.gameState.winner = none ∧
            calcTotalScore s'.playerOne.board = calcTotalScore s'.playerTwo.board)))) :=
  ⟨by decide,
    claim_C3_gameover nearEndState 2 (by decide) (by decide) (by decide) (by decide)
      (by decide)⟩

section KnucklebotSafety

lemma selectLoopAux_none (selfBoard : Board) (stream : Nat → Nat)
    (hfull : ∀ k, laneIsFull selfBoard (stream k) = true) :
    ∀ fuel k, selectLoopAux selfBoard stream k fuel = none := by
  intro fuel
  induction fuel with
  | zero => intro k; rfl
  | succ fuel ih =>
    intro k
    have hred : selectLoopAux selfBoard stream k (fuel + 1) =
        if laneIsFull selfBoard (stream k) then selectLoopAux selfBoard stream (k + 1) fuel
        else some (stream k) := rfl
    rw [hred, if_pos (hfull k)]
    exact ih (k + 1)

lemma selectLoopAux_some (selfBoard : Board) (stream : Nat → Nat) :
    ∀ fuel k r, selectLoopAux selfBoard stream k fuel = some r →
      laneIsFull selfBoard r = false ∧ ∃ j, r = stream j := by
  intro fuel
  induction fuel with
  | zero => intro k r h; cases h
  | succ fuel ih =>
    intro k r h
    have hred : selectLoopAux selfBoard stream k (fuel + 1) =
        if laneIsFull selfBoard (stream k) then selectLoopAux selfBoard stream (k + 1) fuel
        else some (stream k) := rfl
    rw [hred] at h
    by_cases hf : laneIsFull selfBoard (stream k) = true
    · rw [if_pos hf] at h
      exact ih (k + 1) r h
    · rw [if_neg hf] at h
      obtain rfl : stream k = r := Option.some.inj h
      exact ⟨by simpa using hf, k, rfl⟩

lemma matchMove_open {selfBoard : Board} {roll m : Nat}
    (h : matchMove selfBoard roll = some m) : laneIsFull selfBoard m = false := by
  have h2 := List.find?_some h
  rw [Bool.and_eq_true] at h2
  simpa using h2.2

lemma firstNonFullLane_open {selfBoard : Board} {f : Nat}
    (h : firstNonFullLane selfBoard = some f) : laneIsFull selfBoard f = false := by
  have h2 := List.find?_some h
  simpa using h2

lemma firstNonFullLane_none {selfBoard : Board}
    (h : firstNonFullLane selfBoard = none) :
    ∀ i, i < selfBoard.length → laneIsFull selfBoard i = true := by
  intro i hi
  have h2 := List.find?_eq_none.mp h i (List.mem_range.mpr hi)
  simpa using h2

lemma foldl_inv {β : Type} (P : β → Prop) (step : β → Nat → β)
    (hstep : ∀ st i, P st → P (step st i)) :
    ∀ (L : List Nat) (st : β), P st → P (L.foldl step st)
  | [], _, h => h
  | i :: L, st, h => foldl_inv P step hstep L (step st i) (hstep st i h)

lemma bestPlacementStep_open {selfBoard : Board} {roll : Nat}
    {st : Option (Nat × Int)} (i : Nat)
    (h : st = none ∨ ∃ b m, st = some (b, m) ∧ laneIsFull selfBoard b = false) :
    bestPlacementStep selfBoard roll st i = none ∨
      ∃ b m, bestPlacementStep selfBoard roll st i = some (b, m) ∧
        laneIsFull selfBoard b = false := by
  rw [bestPlacementStep]
  by_cases hf : laneIsFull selfBoard i = true
  · rw [if_pos hf]
    exact h
  · rw [if_neg hf]
    by_cases hfill : ((selfBoard.getD i []).filter (fun v => v != 0)).length < LANE_SIZE
    · rw [if_pos hfill]
      rcases h with rfl | ⟨b, m, rfl, hb⟩
      · exact Or.inr ⟨i, _, rfl, by simpa using hf⟩
      · dsimp only
        split
        · exact Or.inr ⟨i, _, rfl, by simpa using hf⟩
        · exact Or.inr ⟨b, m, rfl, hb⟩
    · rw [if_neg hfill]
      exact h

lemma bestPlacementFold_open (selfBoard : Board) (roll : Nat) :
    bestPlacementFold selfBoard roll = none ∨
      ∃ b m, bestPlacementFold selfBoard roll = some (b, m) ∧
        laneIsFull selfBoard b = false := by
  rw [bestPlacementFold]
  exact foldl_inv
    (fun st => st = none ∨
      ∃ b m, st = some (b, m) ∧ laneIsFull selfBoard b = false)
    (bestPlacementStep selfBoard roll)
    (fun st i h => bestPlacementStep_open i h) (List.range selfBoard.length)
    none (Or.inl rfl)

lemma bestPlacementMove_open {selfBoard : Board} (roll rnd : Nat)
    (hlen : selfBoard.length = TOTAL_LANES)
    (hopen : ∃ i, i < TOTAL_LANES ∧ laneIsFull selfBoard i = false) :
    laneIsFull selfBoard (bestPlacementMove selfBoard roll rnd) = false := by
  rw [bestPlacementMove]
  rcases bestPlacementFold_open selfBoard roll with hnone | ⟨b, m, hsome, hb⟩
  · rw [hnone]
    cases hfirst : firstNonFullLane selfBoard with
    | some f => exact firstNonFullLane_open hfirst
    | none =>
      obtain ⟨i, hi, hio⟩ := hopen
      have := firstNonFullLane_none hfirst i (by rw [hlen]; exact hi)
      rw [this] at hio
      cases hio
  · rw [hsome]
    exact hb

end KnucklebotSafety

/-- C5: for every board state where at least one of the own lanes of the
AI is not full, every roll from 1 to 6 and every difficulty, any lane
index the AI returns targets a lane of its own board that is not
full. -/
theorem claim_C5_never_full (oppBoard selfBoard : Board) (roll difficulty : Nat)
    (stream : Nat → Nat) (fuel idx : Nat)
    (hWF : WFBoard selfBoard)
    (hopen : ∃ i, i < TOTAL_LANES ∧ laneIsFull selfBoard i = false)
    (_hroll : 1 ≤ roll ∧ roll ≤ 6)
    (hres : knucklebotMove oppBoard selfBoard roll difficulty false stream fuel = some idx) :
    laneIsFull selfBoard idx = false := by
  simp only [knucklebotMove, Bool.false_eq_true, if_false] at hres
  cases hloop : selectLoopAux selfBoard stream 0 fuel with
  | none =>
    rw [hloop] at hres
    cases hres
  | some r =>
    rw [hloop] at hres
    dsimp only at hres
    have hr := (selectLoopAux_some selfBoard stream fuel 0 r hloop).1
    have hgetD : ∀ o : Option Nat, (∀ f, o = some f → laneIsFull selfBoard f = false) →
        laneIsFull selfBoard (o.getD r) = false := by
      intro o ho
      cases o with
      | none => exact hr
      | some f => exact ho f rfl
    have hfirst : laneIsFull selfBoard ((firstNonFullLane selfBoard).getD r) = false :=
      hgetD _ (fun f hf => firstNonFullLane_open hf)
    by_cases h1 : difficulty = 1
    · rw [if_pos h1] at hres
      obtain rfl := Option.some.inj hres
      cases hm : matchMove selfBoard roll with
      | some m =>
        dsimp only
        exact matchMove_open hm
      | none =>
        cases hc : captureMove oppBoard roll with
        | some c =>
          dsimp only
          by_cases hcf : laneIsFull selfBoard c = true
          · rw [if_pos hcf]
            exact hfirst
          · rw [if_neg hcf]
            simpa using hcf
        | none =>
          dsimp only
          exact hfirst
    · rw [if_neg h1] at hres
      by_cases h2 : difficulty = 2
      · rw [if_pos h2] at hres
        obtain rfl := Option.some.inj hres
        have hbest : laneIsFull selfBoard
            (bestPlacementMove selfBoard roll (stream fuel)) = false :=
          bestPlacementMove_open roll (stream fuel) hWF.1 hopen
        cases hc : captureMove oppBoard roll with
        | some c =>
          dsimp only
          by_cases hcf : laneIsFull selfBoard c = true
          · rw [if_pos hcf]
            exact hbest
          · rw [if_neg hcf]
            simpa using hcf
        | none =>
          dsimp only
          exact hbest
      · rw [if_neg h2] at hres
        obtain rfl := Option.some.inj hres
        have hmatch : laneIsFull selfBoard
            (match matchMove selfBoard roll with
              | some m => m
              | none => (firstNonFullLane selfBoard).getD r) = false := by
          cases hm : matchMove selfBoard roll with
          | some m =>
            dsimp only
            exact matchMove_open hm
          | none =>
            dsimp only
            exact hfirst
        cases hc : captureMove oppBoard roll with
        | some c =>
          dsimp only
          by_cases hcf : laneIsFull selfBoard c = true
          · rw [if_pos hcf]
            exact hmatch
          · rw [if_neg hcf]
            simpa using hcf
        | none =>
          dsimp only
          exact hmatch

/-- Concrete instance discharging the hypotheses of
claim_C5_never_full: on an empty own board the Normal policy answer
targets a non-full lane. -/
theorem claim_C5_never_full_witness :
    (WFBoard ([[0, 0, 0], [0, 0, 0], [0, 0, 0]] : Board) ∧
      (∃ i, i < TOTAL_LANES ∧
        laneIsFull [[0, 0, 0], [0, 0, 0], [0, 0, 0]] i = false) ∧
      (1 ≤ 3 ∧ 3 ≤ 6) ∧
      knucklebotMove [[0, 0, 0], [0, 0, 0], [0, 0, 0]] [[0, 0, 0], [0, 0, 0], [0, 0, 0]]
        3 0 false (fun _ => 0) 1 = some 0) ∧
    laneIsFull [[0, 0, 0], [0, 0, 0], [0, 0, 0]] 0 = false :=
  ⟨⟨by decide, ⟨0, by decide, by decide⟩, by decide, rfl⟩,
    claim_C5_never_full [[0, 0, 0], [0, 0, 0], [0, 0, 0]]
      [[0, 0, 0], [0, 0, 0], [0, 0, 0]] 3 0 (fun _ => 0) 1 0 (by decide)
      ⟨0, by decide, by decide⟩ (by decide) rfl⟩

/-- C9 (amended): the AI computes its random fallback lane by the
resampling loop before consulting any difficulty policy; with the
game-over flag false, if all three own lanes are full the loop never
exits under any stream of draws below 3, so no move is produced for any
fuel; and whenever some own lane j is full, the stream that constantly
draws j keeps the loop from ever exiting, even though the difficulty
policy part of the function would return a lane without using the
random draw. -/
theorem claim_C9_nontermination (oppBoard selfBoard : Board) (roll difficulty : Nat) :
    ((∀ i, i < TOTAL_LANES → laneIsFull selfBoard i = true) →
      ∀ stream : Nat → Nat, (∀ k, stream k < TOTAL_LANES) →
        ∀ fuel, knucklebotMove oppBoard selfBoard roll difficulty false stream fuel = none) ∧
    (∀ j, laneIsFull selfBoard j = true →
      ∀ fuel,
        knucklebotMove oppBoard selfBoard roll difficulty false (fun _ => j) fuel = none) := by
  have key : ∀ stream : Nat → Nat, (∀ k, laneIsFull selfBoard (stream k) = true) →
      ∀ fuel, knucklebotMove oppBoard selfBoard roll difficulty false stream fuel = none := by
    intro stream hstream fuel
    simp only [knucklebotMove, Bool.false_eq_true, if_false]
    rw [selectLoopAux_none selfBoard stream hstream fuel 0]
  refine ⟨fun hall stream hs3 fuel => key stream (fun k => hall (stream k) (hs3 k)) fuel,
    fun j hj fuel => key (fun _ => j) (fun _ => hj) fuel⟩

/-- The claim as frozen fails on the all-empty board: a non-full own
lane exists there, yet no stream of draws only ever yields full-lane
indices, because no lane of that board is full at all, so the loop exits
on the very first draw of any stream. -/
theorem claim_C9_nontermination_cex :
    (∃ i, i < TOTAL_LANES ∧
      laneIsFull [[0, 0, 0], [0, 0, 0], [0, 0, 0]] i = false) ∧
    ¬(∃ stream : Nat → Nat,
        ∀ k, laneIsFull [[0, 0, 0], [0, 0, 0], [0, 0, 0]] (stream k) = true) := by
  constructor
  · exact ⟨0, by decide, by decide⟩
  · rintro ⟨stream, h⟩
    have h0 := h 0
    have hni : ∀ n, laneIsFull [[0, 0, 0], [0, 0, 0], [0, 0, 0]] n = false := by
      intro n
      rcases Nat.lt_or_ge n 3 with hn | hn
      · interval_cases n <;> rfl
      · rw [laneIsFull,
          List.getD_eq_default ([[0, 0, 0], [0, 0, 0], [0, 0, 0]] : Board) []
            (by simpa using hn)]
        rfl
    rw [hni (stream 0)] at h0
    cases h0

/-- Concrete instance discharging the hypotheses of
claim_C9_nontermination: with the first own lane full, constantly
drawing index 0 starves the loop and no move is produced. -/
theorem claim_C9_nontermination_witness :
    (laneIsFull [[1, 1, 1], [0, 0, 0], [0, 0, 0]] 0 = true) ∧
    knucklebotMove [[0, 0, 0], [0, 0, 0], [0, 0, 0]] [[1, 1, 1], [0, 0, 0], [0, 0, 0]]
      1 0 false (fun _ => 0) 5 = none :=
  ⟨by decide,
    (claim_C9_nontermination [[0, 0, 0], [0, 0, 0], [0, 0, 0]]
      [[1, 1, 1], [0, 0, 0], [0, 0, 0]] 1 0).2 0 (by decide) 5⟩

/-- The frozen claim computes the lane 0 delta for roll 1 on [1,1,0] as
laneScore [1,1,1] - laneScore [1,1,0] = 3 - 2 = 1; in the code the two
lane scores are 9 and 4, so that delta is 5, not 1, and no tie at delta
1 exists. -/
theorem claim_C8_best_lane_cex :
    laneDelta [1, 1, 0] 1 ≠ 1 ∧ calcLaneScore [1, 1, 1] ≠ 3 ∧
      calcLaneScore [1, 1, 0] ≠ 2 := by decide

/-- C8 (amended): for self lanes [[1,1,0],[0,0,0],[4,0,0]] and roll 1
the simulated placement deltas are 5 for lane 0 (laneScore [1,1,1] = 9
minus laneScore [1,1,0] = 4), 1 for lane 1 and 1 for lane 2; lane 0
carries the strictly greatest delta and is the returned lane, for any
value of the random fallback. -/
theorem claim_C8_best_lane :
    laneDelta [1, 1, 0] 1 = 5 ∧ laneDelta [0, 0, 0] 1 = 1 ∧ laneDelta [4, 0, 0] 1 = 1 ∧
    calcLaneScore [1, 1, 1] = 9 ∧ calcLaneScore [1, 1, 0] = 4 ∧
    (∀ rnd, bestPlacementMove [[1, 1, 0], [0, 0, 0], [4, 0, 0]] 1 rnd = 0) := by
  refine ⟨by decide, by decide, by decide, by decide, by decide, fun rnd => ?_⟩
  have h : bestPlacementFold [[1, 1, 0], [0, 0, 0], [4, 0, 0]] 1 = some (0, 5) := by
    decide
  unfold bestPlacementMove
  rw [h]

section PolicyRefinement

lemma notFull_filter_lt {selfBoard : Board} {i : Nat} (hWF : WFBoard selfBoard)
    (hi : i < TOTAL_LANES) (hopen : laneIsFull selfBoard i = false) :
    ((selfBoard.getD i []).filter (fun v => v != 0)).length < LANE_SIZE := by
  obtain ⟨hlen, _⟩ := hWF.2 i hi
  have h0 : (selfBoard.getD i []).getD 2 0 = 0 := by
    simpa [laneIsFull, LANE_SIZE] using hopen
  have h2 : 2 < (selfBoard.getD i []).length := by
    rw [hlen]
    norm_num [LANE_SIZE]
  have hmem : (0 : Nat) ∈ selfBoard.getD i [] := by
    have h3 : (selfBoard.getD i []).getD 2 0 ∈ selfBoard.getD i [] := by
      rw [List.getD_eq_getElem _ 0 h2]
      exact List.getElem_mem h2
    rwa [h0] at h3
  have hlt : ((selfBoard.getD i []).filter (fun v => v != 0)).length <
      (selfBoard.getD i []).length :=
    List.length_filter_lt_length_iff_exists.mpr ⟨0, hmem, by simp⟩
  rw [hlen] at hlt
  exact hlt

lemma bestFold_invariant (selfBoard : Board) (roll : Nat) (hWF : WFBoard selfBoard) :
    ∀ L : List Nat, (∀ i ∈ L, i < TOTAL_LANES) → List.Pairwise (· < ·) L →
      ((∀ i ∈ L, laneIsFull selfBoard i = true) ∧
        L.foldl (bestPlacementStep selfBoard roll) none = none) ∨
      (∃ b m, L.foldl (bestPlacementStep selfBoard roll) none = some (b, m) ∧
        b ∈ L ∧ laneIsFull selfBoard b = false ∧
        m = laneDelta (selfBoard.getD b []) roll ∧
        (∀ j ∈ L, laneIsFull selfBoard j = false →
          laneDelta (selfBoard.getD j []) roll ≤ m) ∧
        (∀ j ∈ L, j < b → laneIsFull selfBoard j = false →
          laneDelta (selfBoard.getD j []) roll < m)) := by
  intro L
  induction L using List.reverseRecOn with
  | nil =>
    intro _ _
    exact Or.inl ⟨fun i hi => absurd hi (List.not_mem_nil i), rfl⟩
  | append_singleton L i ih =>
    intro hmem hpair
    obtain ⟨hpairL, _, hlti⟩ := List.pairwise_append.mp hpair
    have hlti2 : ∀ a ∈ L, a < i := fun a ha => hlti a ha i (List.mem_singleton.mpr rfl)
    have hmemL : ∀ x ∈ L, x < TOTAL_LANES :=
      fun x hx => hmem x (List.mem_append.mpr (Or.inl hx))
    have hiT : i < TOTAL_LANES := hmem i (List.mem_append.mpr (Or.inr (List.mem_singleton.mpr rfl)))
    rw [List.foldl_append]
    rcases ih hmemL hpairL with ⟨hallfull, hnone⟩ | ⟨b, m, hsome, hbL, hbopen, hm, hmax, hstrict⟩
    · rw [hnone]
      by_cases hio : laneIsFull selfBoard i = true
      · left
        refine ⟨fun x hx => ?_, ?_⟩
        · rcases List.mem_append.mp hx with hx | hx
          · exact hallfull x hx
          · rw [List.mem_singleton.mp hx]
            exact hio
        · show bestPlacementStep selfBoard roll none i = none
          rw [bestPlacementStep, if_pos hio]
      · right
        have hio2 : laneIsFull selfBoard i = false := by simpa using hio
        refine ⟨i, laneDelta (selfBoard.getD i []) roll, ?_, ?_, hio2, rfl, ?_, ?_⟩
        · show bestPlacementStep selfBoard roll none i = _
          rw [bestPlacementStep, if_neg hio, if_pos (notFull_filter_lt hWF hiT hio2)]
        · exact List.mem_append.mpr (Or.inr (List.mem_singleton.mpr rfl))
        · intro j hj hjopen
          rcases List.mem_append.mp hj with hj | hj
          · rw [hallfull j hj] at hjopen
            cases hjopen
          · rw [List.mem_singleton.mp hj]
        · intro j hj hji hjopen
          rcases List.mem_append.mp hj with hj | hj
          · rw [hallfull j hj] at hjopen
            cases hjopen
          · rw [List.mem_singleton.mp hj] at hji
            exact absurd hji (lt_irrefl i)
    · rw [hsome]
      have hbi : b < i := hlti2 b hbL
      by_cases hio : laneIsFull selfBoard i = true
      · right
        refine ⟨b, m, ?_, List.mem_append.mpr (Or.inl hbL), hbopen, hm, ?_, ?_⟩
        · show bestPlacementStep selfBoard roll (some (b, m)) i = _
          rw [bestPlacementStep, if_pos hio]
        · intro j hj hjopen
          rcases List.mem_append.mp hj with hj | hj
          · exact hmax j hj hjopen
          · rw [List.mem_singleton.mp hj] at hjopen
            rw [hio] at hjopen
            cases hjopen
        · intro j hj hjb hjopen
          rcases List.mem_append.mp hj with hj | hj
          · exact hstrict j hj hjb hjopen
          · rw [List.mem_singleton.mp hj] at hjb
            exact absurd (lt_trans hjb hbi) (lt_irrefl i)
      · have hio2 : laneIsFull selfBoard i = false := by simpa using hio
        have hstep : bestPlacementStep selfBoard roll (some (b, m)) i =
            if m < laneDelta (selfBoard.getD i []) roll
            then some (i, laneDelta (selfBoard.getD i []) roll) else some (b, m) := by
          rw [bestPlacementStep, if_neg hio, if_pos (notFull_filter_lt hWF hiT hio2)]
        by_cases hlt : m < laneDelta (selfBoard.getD i []) roll
        · right
          refine ⟨i, laneDelta (selfBoard.getD i []) roll, ?_,
            List.mem_append.mpr (Or.inr (List.mem_singleton.mpr rfl)), hio2, rfl, ?_, ?_⟩
          · show bestPlacementStep selfBoard roll (some (b, m)) i = _
            rw [hstep, if_pos hlt]
          · intro j hj hjopen
            rcases List.mem_append.mp hj with hj | hj
            · exact le_of_lt (lt_of_le_of_lt (hmax j hj hjopen) hlt)
            · rw [List.mem_singleton.mp hj]
          · intro j hj hji hjopen
            rcases List.mem_append.mp hj with hj | hj
            · exact lt_of_le_of_lt (hmax j hj hjopen) hlt
            · rw [List.mem_singleton.mp hj] at hji
              exact absurd hji (lt_irrefl i)
        · right
          refine ⟨b, m, ?_, List.mem_append.mpr (Or.inl hbL), hbopen, hm, ?_, ?_⟩
          · show bestPlacementStep selfBoard roll (some (b, m)) i = _
            rw [hstep, if_neg hlt]
          · intro j hj hjopen
            rcases List.mem_append.mp hj with hj | hj
            · exact hmax j hj hjopen
            · rw [List.mem_singleton.mp hj]
              exact Int.not_lt.mp hlt
          · intro j hj hjb hjopen
            rcases List.mem_append.mp hj with hj | hj
            · exact hstrict j hj hjb hjopen
            · rw [List.mem_singleton.mp hj] at hjb
              exact absurd (lt_trans hjb hbi) (lt_irrefl i)

end PolicyRefinement

section PolicyRefinementTwo

lemma find?_first {p : Nat → Bool} {b : Nat} :
    ∀ {C : List Nat}, List.Pairwise (· < ·) C → b ∈ C → p b = true →
      (∀ j ∈ C, j < b → p j = false) → C.find? p = some b := by
  intro C
  induction C with
  | nil => intro _ hb; cases hb
  | cons c C ih =>
    intro hC hb hpb hprev
    rcases List.mem_cons.mp hb with rfl | hbC
    · exact List.find?_cons_of_pos C hpb
    · have hcb : c < b := (List.pairwise_cons.mp hC).1 b hbC
      have hpc : p c = false := hprev c (List.mem_cons_self c C) hcb
      rw [List.find?_cons_of_neg C (by simp [hpc])]
      exact ih (List.pairwise_cons.mp hC).2 hbC hpb
        (fun j hj hjb => hprev j (List.mem_cons_of_mem c hj) hjb)

lemma bestScoringLaneSpec_eq (selfBoard : Board) (roll : Nat)
    (hWF : WFBoard selfBoard)
    (hopen : ∃ i, i < TOTAL_LANES ∧ laneIsFull selfBoard i = false) :
    ∀ rnd, bestScoringLaneSpec selfBoard roll =
      some (bestPlacementMove selfBoard roll rnd) := by
  intro rnd
  have hmemL : ∀ i ∈ List.range selfBoard.length, i < TOTAL_LANES := by
    intro i hi
    rw [← hWF.1]
    exact List.mem_range.mp hi
  rcases bestFold_invariant selfBoard roll hWF (List.range selfBoard.length) hmemL
      (List.pairwise_lt_range _) with
    ⟨hallfull, hnone⟩ | ⟨b, m, hsome, hbL, hbopen, hm, hmax, hstrict⟩
  · exfalso
    obtain ⟨i, hi, hio⟩ := hopen
    have := hallfull i (List.mem_range.mpr (by rw [hWF.1]; exact hi))
    rw [this] at hio
    cases hio
  · have hsome2 : bestPlacementFold selfBoard roll = some (b, m) := hsome
    have hbm : bestPlacementMove selfBoard roll rnd = b := by
      unfold bestPlacementMove
      rw [hsome2]
    rw [hbm, bestScoringLaneSpec]
    have hCpair : List.Pairwise (· < ·)
        ((List.range selfBoard.length).filter (fun i => !(laneIsFull selfBoard i))) :=
      List.Pairwise.filter _ (List.pairwise_lt_range _)
    have hmemC : ∀ j ∈ (List.range selfBoard.length).filter
        (fun i => !(laneIsFull selfBoard i)),
        j ∈ List.range selfBoard.length ∧ laneIsFull selfBoard j = false := by
      intro j hj
      have h2 := List.mem_filter.mp hj
      exact ⟨h2.1, by simpa using h2.2⟩
    apply find?_first hCpair
    · exact List.mem_filter.mpr ⟨hbL, by simp [hbopen]⟩
    · apply decide_eq_true
      intro j hj
      obtain ⟨hjR, hjopen⟩ := hmemC j hj
      rw [← hm]
      exact hmax j hjR hjopen
    · intro j hj hjb
      apply decide_eq_false
      intro hforall
      obtain ⟨hjR, hjopen⟩ := hmemC j hj
      have hlt : laneDelta (selfBoard.getD j []) roll < m := hstrict j hjR hjb hjopen
      have hle := hforall b (List.mem_filter.mpr ⟨hbL, by simp [hbopen]⟩)
      rw [← hm] at hle
      omega

end PolicyRefinementTwo

/-- C4: whenever the resampling loop has produced its random fallback
lane r, the AI returns exactly the first hit of its difficulty policy:
Easy (1) tries match, then capture if the own lane at the capture index
is open, then the first open lane, then r; Hard (2) tries the guarded
capture, then the best scoring lane, then match, then the first open
lane, then r; Normal (0 and every other value, the default) tries the
guarded capture, then match, then the first open lane, then r. A
capture whose same-index own lane is full is skipped and the policy
falls through to its next priority. -/
theorem claim_C4_policy (oppBoard selfBoard : Board) (roll difficulty : Nat)
    (stream : Nat → Nat) (fuel r : Nat)
    (hWF : WFBoard selfBoard)
    (hstream : ∀ k, stream k < TOTAL_LANES)
    (hloop : selectLoopAux selfBoard stream 0 fuel = some r) :
    knucklebotMove oppBoard selfBoard roll difficulty false stream fuel =
      some (chooseLaneSpec oppBoard selfBoard roll difficulty r) := by
  obtain ⟨hropen, j, hrj⟩ := selectLoopAux_some selfBoard stream fuel 0 r hloop
  have hopen : ∃ i, i < TOTAL_LANES ∧ laneIsFull selfBoard i = false :=
    ⟨r, by rw [hrj]; exact hstream j, hropen⟩
  simp only [knucklebotMove, Bool.false_eq_true, if_false]
  rw [hloop]
  dsimp only
  unfold chooseLaneSpec
  by_cases h1 : difficulty = 1
  · subst h1
    rw [if_pos rfl, if_pos rfl]
    congr 1
    cases hm : matchMove selfBoard roll with
    | some m => simp [List.filterMap_cons]
    | none =>
      cases hc : captureMove oppBoard roll with
      | some c =>
        by_cases hcf : laneIsFull selfBoard c = true
        · cases hf : firstNonFullLane selfBoard <;>
            simp [captureIfOpen, hc, hcf, List.filterMap_cons]
        · simp [captureIfOpen, hc, hcf, List.filterMap_cons]
      | none =>
        cases hf : firstNonFullLane selfBoard <;>
          simp [captureIfOpen, hc, List.filterMap_cons]
  · rw [if_neg h1, if_neg h1]
    have hbs := bestScoringLaneSpec_eq selfBoard roll hWF hopen (stream fuel)
    by_cases h2 : difficulty = 2
    · subst h2
      rw [if_pos rfl, if_pos rfl]
      congr 1
      cases hc : captureMove oppBoard roll with
      | some c =>
        by_cases hcf : laneIsFull selfBoard c = true
        · simp [captureIfOpen, hc, hcf, hbs, List.filterMap_cons]
        · simp [captureIfOpen, hc, hcf, List.filterMap_cons]
      | none =>
        simp [captureIfOpen, hc, hbs, List.filterMap_cons]
    · rw [if_neg h2, if_neg h2]
      congr 1
      cases hc : captureMove oppBoard roll with
      | some c =>
        by_cases hcf : laneIsFull selfBoard c = true
        · cases hm : matchMove selfBoard roll with
          | some m => simp [captureIfOpen, hc, hcf, List.filterMap_cons]
          | none =>
            cases hf : firstNonFullLane selfBoard <;>
              simp [captureIfOpen, hc, hcf, List.filterMap_cons]
        · simp [captureIfOpen, hc, hcf, List.filterMap_cons]
      | none =>
        cases hm : matchMove selfBoard roll with
        | some m => simp [captureIfOpen, hc, List.filterMap_cons]
        | none =>
          cases hf : firstNonFullLane selfBoard <;>
            simp [captureIfOpen, hc, List.filterMap_cons]

/-- Concrete instance discharging the hypotheses of claim_C4_policy: on
Normal difficulty with roll 2 the guarded capture of opponent lane 0 is
the first policy hit. -/
theorem claim_C4_policy_witness :
    (WFBoard ([[0, 0, 0], [0, 0, 0], [0, 0, 0]] : Board) ∧
      selectLoopAux [[0, 0, 0], [0, 0, 0], [0, 0, 0]] (fun _ => 1) 0 1 = some 1) ∧
    knucklebotMove [[2, 0, 0], [0, 0, 0], [0, 0, 0]] [[0, 0, 0], [0, 0, 0], [0, 0, 0]]
        2 0 false (fun _ => 1) 1 =
      some (chooseLaneSpec [[2, 0, 0], [0, 0, 0], [0, 0, 0]]
        [[0, 0, 0], [0, 0, 0], [0, 0, 0]] 2 0 1) :=
  ⟨⟨by decide, rfl⟩,
    claim_C4_policy [[2, 0, 0], [0, 0, 0], [0, 0, 0]] [[0, 0, 0], [0, 0, 0], [0, 0, 0]]
      2 0 (fun _ => 1) 1 1 (by decide) (fun _ => by norm_num [TOTAL_LANES]) rfl⟩
